import Mathlib

/-!
Shallow embedding of the geo-mapper drawing state machine.

The repository is a browser map-annotation UI. Its core is the in-memory
feature/drawing state: the active drawing tool, the in-progress vertex
lists, the ordered feature collection, and the selection/properties-panel
state, all mutated by synchronous click/toolbar handlers.

The primary embedding below follows src/src/components/map/MapComponent.tsx
line by line. React `useState` fields become fields of `MapState`; each
handler becomes a state-transformer `MapState → MapState`; a handler
invocation reads the current state (the functional-updater reading of
`setState`). Calls into the mapbox rendering surface (addLayer/
removeLayer/addSource/removeSource/setData/getLayer/getSource) have no
effect on the component state and are not modelled, except where a thrown
access on a missing value would abort the handler before any state
mutation, which is modelled as returning the state unchanged.

Click-listener registration is modelled explicitly, because the component
binds two listeners: the mount effect (deps `[]`) binds `handleMapClick`
once, whose closure captured the initial `drawingMode` value `null`, and
the `[drawingMode]` effect binds `handleDrawingClick`, unbinding the
previous one in its cleanup on every mode change, so its captured mode
always equals the current mode. A bound listener is represented by the
`drawingMode` value its closure captured.

A second, last-feature-based draft of the component exists in the
repository (src/unnamed/part_002, and textually the same logic inside
src/src/components/map/FeatureList.tsx); its `addLinePoint` is embedded
separately in namespace `DraftTwo`.
-/

namespace GeoMapper

/-- A JavaScript number as carried by `e.lngLat`: a finite double
(modelled as a rational) or one of the non-finite values. The core never
computes with coordinates, it only stores and compares them. -/
inductive JSNum where
  | finite (q : ℚ)
  | nan
  | posInf
  | negInf
deriving DecidableEq, Repr

/-- A `(longitude, latitude)` pair. -/
abbrev Coord := JSNum × JSNum

/-- Feature identifiers. `uuid n` models the n-th call to `uuidv4()`
(fresh each call); `lineStamp t` and `polygonStamp t` model the template
strings built from `Date.now()` in the second draft. -/
inductive FeatureId where
  | uuid (n : ℕ)
  | lineStamp (t : ℕ)
  | polygonStamp (t : ℕ)
deriving DecidableEq, Repr

/-- GeoJSON geometry as built by the component: `Point` holds one pair,
`LineString` a list of pairs, `Polygon` a list of rings. -/
inductive Geometry where
  | point (c : Coord)
  | lineString (cs : List Coord)
  | polygon (rings : List (List Coord))
deriving DecidableEq, Repr

/-- The `properties` object of a `CustomFeature`: exactly a `name` and a
`description` string (MapComponent.tsx lines 31-35). -/
structure FeatureProps where
  name : String
  description : String
deriving DecidableEq, Repr

/-- `CustomFeature` (MapComponent.tsx lines 29-35): a GeoJSON feature
with a string id and name/description properties. -/
structure CustomFeature where
  id : FeatureId
  geometry : Geometry
  properties : FeatureProps
deriving DecidableEq, Repr

/-- The non-null drawing modes: "point" | "line" | "polygon". -/
inductive DrawingMode where
  | point
  | line
  | polygon
deriving DecidableEq, Repr

namespace MapComponent

/-- The component state of src/src/components/map/MapComponent.tsx: the
`useState` fields read or written by the drawing/feature handlers
(lines 50-61). `drawingMode` is `none` for the initial `null`.
`currentFeature` is declared and reset by `handleToolSelect` but never
read by any handler. `nextUuid` models the `uuidv4()` call counter. -/
structure MapState where
  features : List CustomFeature
  drawingMode : Option DrawingMode
  currentFeature : Option CustomFeature
  selectedFeature : Option CustomFeature
  showProperties : Bool
  linePoints : List Coord
  polygonPoints : List Coord
  nextUuid : ℕ
deriving DecidableEq, Repr

/-- The initial state of every `useState` call (lines 50-61). -/
def initialState : MapState :=
  { features := []
    drawingMode := none
    currentFeature := none
    selectedFeature := none
    showProperties := false
    linePoints := []
    polygonPoints := []
    nextUuid := 0 }

/-- `addPoint` (lines 261-303): guard `!e.lngLat`, then build a feature
with a fresh uuid, `Point` geometry at the clicked pair, and default
name/description, and append it to `features`. -/
def addPoint (lngLat : Option Coord) (s : MapState) : MapState :=
  match lngLat with
  | none => s
  | some c =>
    let feature : CustomFeature :=
      { id := .uuid s.nextUuid
        geometry := .point c
        properties :=
          { name := "Point " ++ toString (s.features.length + 1)
            description := "New point feature" } }
    { s with
        features := s.features ++ [feature]
        nextUuid := s.nextUuid + 1 }

/-- `addLinePoint` (lines 305-350): push the clicked pair onto
`linePoints`; then, testing the pre-push `linePoints` value (the local
`linePoints` variable is not changed by `setLinePoints`), if it was
non-empty, build a brand-new feature with a fresh uuid and `LineString`
geometry `[...linePoints, coordinates]` and append it to `features`. -/
def addLinePoint (lngLat : Option Coord) (s : MapState) : MapState :=
  match lngLat with
  | none => s
  | some c =>
    let pushed := { s with linePoints := s.linePoints ++ [c] }
    if s.linePoints.length > 0 then
      let feature : CustomFeature :=
        { id := .uuid s.nextUuid
          geometry := .lineString (s.linePoints ++ [c])
          properties :=
            { name := "Line " ++ toString (s.features.length + 1)
              description := "New line feature" } }
      { pushed with
          features := pushed.features ++ [feature]
          nextUuid := s.nextUuid + 1 }
    else
      pushed

/-- `addPolygonPoint` (lines 352-397): symmetric to `addLinePoint`, with
`Polygon` geometry `[[...polygonPoints, coordinates]]`. -/
def addPolygonPoint (lngLat : Option Coord) (s : MapState) : MapState :=
  match lngLat with
  | none => s
  | some c =>
    let pushed := { s with polygonPoints := s.polygonPoints ++ [c] }
    if s.polygonPoints.length > 0 then
      let feature : CustomFeature :=
        { id := .uuid s.nextUuid
          geometry := .polygon [s.polygonPoints ++ [c]]
          properties :=
            { name := "Polygon " ++ toString (s.features.length + 1)
              description := "New polygon feature" } }
      { pushed with
          features := pushed.features ++ [feature]
          nextUuid := s.nextUuid + 1 }
    else
      pushed

/-- The body shared by `handleMapClick` (lines 107-123) and
`handleDrawingClick` (lines 141-157), run with the `drawingMode` value
`mode` captured by the listener's closure: return if the captured mode is
null; reading `e.lngLat.lng` throws on a missing `lngLat`, aborting the
handler before any state mutation; otherwise dispatch on the mode. -/
def dispatchClick (mode : Option DrawingMode) (lngLat : Option Coord)
    (s : MapState) : MapState :=
  match mode, lngLat with
  | none, _ => s
  | some _, none => s
  | some .point, some c => addPoint (some c) s
  | some .line, some c => addLinePoint (some c) s
  | some .polygon, some c => addPolygonPoint (some c) s

/-- `handleToolSelect` (lines 399-402): set `drawingMode` and reset
`currentFeature`; nothing else — in particular `linePoints` and
`polygonPoints` are left as they are. -/
def handleToolSelect (tool : Option DrawingMode) (s : MapState) : MapState :=
  { s with drawingMode := tool, currentFeature := none }

/-- `clearAll` (lines 210-224): remove every feature's rendering layer,
then set `features` to `[]` and `drawingMode` to null; `linePoints` and
`polygonPoints` are left as they are. -/
def clearAll (s : MapState) : MapState :=
  { s with features := [], drawingMode := none }

/-- `removeFeature` (lines 226-237): remove the rendering layer of
`features[index]`, then keep exactly the entries whose position differs
from `index` (`prev.filter((_, i) => i !== index)`). -/
def removeFeature (index : ℕ) (s : MapState) : MapState :=
  { s with
      features := (s.features.enum.filter (fun p => p.1 ≠ index)).map Prod.snd }

/-- `handleFeatureDelete` (lines 244-259): drop every feature whose id
equals `id`; if the selected feature's id equals `id`, clear the
selection and close the properties panel. -/
def handleFeatureDelete (id : FeatureId) (s : MapState) : MapState :=
  let s1 := { s with features := s.features.filter (fun f => f.id ≠ id) }
  match s.selectedFeature with
  | some sel =>
      if sel.id = id then
        { s1 with selectedFeature := none, showProperties := false }
      else
        s1
  | none => s1

/-- `handleFeatureSelect` (lines 239-242): select the feature and open
the properties panel. -/
def handleFeatureSelect (f : CustomFeature) (s : MapState) : MapState :=
  { s with selectedFeature := some f, showProperties := true }

/-- `handleFeatureUpdate` (lines 428-458): replace the `properties` of
every stored feature whose id equals the updated feature's id
(`{...f, properties: updatedFeature.properties}`), leaving the others
as they are; then clear the selection and close the panel. -/
def handleFeatureUpdate (updated : CustomFeature) (s : MapState) : MapState :=
  { s with
      features := s.features.map (fun f =>
        if f.id = updated.id then { f with properties := updated.properties }
        else f)
      selectedFeature := none
      showProperties := false }

/-- `handleSave` of the FeatureProperties panel (src/unnamed/part_001
lines 23-37): spread the feature and overwrite its `properties` with the
old properties merged with the edited `name` and `description`; since
`properties` has exactly those two fields, the merge replaces both. -/
def handleSave (feature : CustomFeature) (name description : String) :
    CustomFeature :=
  { feature with properties := { name := name, description := description } }

/-- The `updateFeatureProperties(id, name, description)` entry: the panel
holds the feature, `handleSave` rebuilds it with the edited properties and
hands it to `handleFeatureUpdate`. -/
def updateFeatureProperties (feature : CustomFeature)
    (name description : String) (s : MapState) : MapState :=
  handleFeatureUpdate (handleSave feature name description) s

/-- The component together with its bound map click listeners. Each
listener is represented by the `drawingMode` value its closure captured:
`mountHandlerMode` for `handleMapClick` (mount effect, deps `[]`, bound
once and unbound only at unmount) and `drawingHandlerMode` for
`handleDrawingClick` (deps `[drawingMode]`, the effect cleanup unbinds
the previous listener before the new one is bound). -/
structure Component where
  state : MapState
  mountHandlerMode : Option DrawingMode
  drawingHandlerMode : Option DrawingMode
deriving DecidableEq, Repr

/-- The freshly mounted component: initial state, and both effects have
run once with the initial `drawingMode` value `null`. -/
def mount : Component :=
  { state := initialState
    mountHandlerMode := none
    drawingHandlerMode := none }

/-- The click listeners currently bound to the rendering surface, each
given by its captured mode, in binding order. -/
def boundClickHandlers (c : Component) : List (Option DrawingMode) :=
  [c.mountHandlerMode, c.drawingHandlerMode]

/-- User-interface events driving the component: a toolbar tool
selection, a physical map click, and the Clear All button. -/
inductive UIEvent where
  | setTool (tool : Option DrawingMode)
  | click (lngLat : Option Coord)
  | clearAllPressed
deriving DecidableEq, Repr

/-- One synchronous event turn. `setTool` runs `handleToolSelect` and the
`[drawingMode]` effect then rebinds the drawing listener capturing the
new mode; a click runs every bound listener in binding order; Clear All
runs `clearAll`, and since it set `drawingMode` to null the effect
rebinds the drawing listener capturing null. -/
def step (e : UIEvent) (c : Component) : Component :=
  match e with
  | .setTool t =>
      { state := handleToolSelect t c.state
        mountHandlerMode := c.mountHandlerMode
        drawingHandlerMode := t }
  | .click lngLat =>
      { c with
          state := (boundClickHandlers c).foldl
            (fun s m => dispatchClick m lngLat s) c.state }
  | .clearAllPressed =>
      { state := clearAll c.state
        mountHandlerMode := c.mountHandlerMode
        drawingHandlerMode := none }

/-- Run an event sequence from the freshly mounted component. -/
def run (events : List UIEvent) : Component :=
  events.foldl (fun c e => step e c) mount

end MapComponent

namespace DraftTwo

/-!
The second draft of the component (src/unnamed/part_002; the same logic
appears textually inside src/src/components/map/FeatureList.tsx after
the FeatureList declaration). It keeps no separate vertex list: a line
or polygon is in progress exactly when the LAST element of `features` has
that type, and appending a vertex replaces that last element. Its feature
record is the `MapFeature` interface (part_002 lines 22-26). `Date.now()`
is modelled by a timestamp passed in with each click event; physically
distinct clicks carry distinct, increasing timestamps.
-/

/-- The `type` tag of a `MapFeature`: "point" | "line" | "polygon". -/
inductive FType where
  | point
  | line
  | polygon
deriving DecidableEq, Repr

/-- The `coordinates` union of a `MapFeature`: a single pair (points) or
a sequence of pairs (lines/polygons). -/
inductive CoordsValue where
  | single (c : Coord)
  | seq (cs : List Coord)
deriving DecidableEq, Repr

/-- The cast `lastFeature.coordinates as [number, number][]` applied
before spreading; it is only reached when the last feature is a line or
polygon, whose coordinates are always a sequence. -/
def CoordsValue.asSeq : CoordsValue → List Coord
  | .single c => [c]
  | .seq cs => cs

/-- `MapFeature` (part_002 lines 22-26). -/
structure MapFeature where
  type : FType
  coordinates : CoordsValue
  id : FeatureId
deriving DecidableEq, Repr

/-- The draft's component state: the `features` list and `drawingMode`
(other `useState` fields are untouched by the drawing handlers). -/
structure DraftState where
  features : List MapFeature
  drawingMode : Option DrawingMode
deriving DecidableEq, Repr

/-- `addLinePoint` (part_002 lines 260-343): if the last stored feature
is a line, rebuild it with the clicked pair appended to its coordinates
and a freshly generated id `line-${Date.now()}`, replacing the last
element (`[...prev.slice(0, -1), ...]`); otherwise append a new
one-vertex line feature, also with a fresh `line-${Date.now()}` id. -/
def addLinePoint (coordinates : Coord) (now : ℕ) (s : DraftState) :
    DraftState :=
  let prev := s.features
  match prev.getLast? with
  | some lastFeature =>
      if lastFeature.type = .line then
        let lineCoordinates := lastFeature.coordinates.asSeq ++ [coordinates]
        { s with
            features := prev.dropLast ++
              [{ type := .line
                 coordinates := .seq lineCoordinates
                 id := .lineStamp now }] }
      else
        { s with
            features := prev ++
              [{ type := .line
                 coordinates := .seq [coordinates]
                 id := .lineStamp now }] }
  | none =>
      { s with
          features := prev ++
            [{ type := .line
               coordinates := .seq [coordinates]
               id := .lineStamp now }] }

end DraftTwo

namespace MapComponent

/-- The bookkeeping invariant of the listener model at reachable
components: the mount listener still carries its captured initial null
mode, and the drawing listener's captured mode equals the current
`drawingMode` (the `[drawingMode]` effect reran at its last change). -/
def HandlerInv (c : Component) : Prop :=
  c.mountHandlerMode = none ∧ c.drawingHandlerMode = c.state.drawingMode

/-- A committed sample point feature, used to instantiate the general
theorems at concrete inputs. -/
def samplePoint : CustomFeature :=
  { id := .uuid 0
    geometry := .point (.finite 3, .finite 4)
    properties := { name := "Point 1", description := "New point feature" } }

/-- A second committed sample feature with a distinct id. -/
def sampleLine : CustomFeature :=
  { id := .uuid 1
    geometry := .lineString [(.finite 0, .finite 0), (.finite 1, .finite 1)]
    properties := { name := "Line 2", description := "New line feature" } }

/-- A sample store holding the two sample features. -/
def sampleStore : MapState :=
  { initialState with features := [samplePoint, sampleLine] }

/-- The sample store with the point feature selected and the properties
panel open. -/
def selectedStore : MapState :=
  { sampleStore with selectedFeature := some samplePoint, showProperties := true }

/-- A feature value whose id is absent from `sampleStore`. -/
def ghostFeature : CustomFeature :=
  { id := .uuid 7
    geometry := .point (.finite 0, .finite 0)
    properties := { name := "x", description := "y" } }

end MapComponent

end GeoMapper

namespace GeoMapper

namespace MapComponent

theorem dispatchClick_none (lngLat : Option Coord) (s : MapState) :
    dispatchClick none lngLat s = s := by
  cases lngLat <;> rfl

theorem addPoint_drawingMode (lngLat : Option Coord) (s : MapState) :
    (addPoint lngLat s).drawingMode = s.drawingMode := by
  cases lngLat <;> rfl

theorem addLinePoint_drawingMode (lngLat : Option Coord) (s : MapState) :
    (addLinePoint lngLat s).drawingMode = s.drawingMode := by
  cases lngLat with
  | none => rfl
  | some c =>
      simp only [addLinePoint]
      split <;> rfl

theorem addPolygonPoint_drawingMode (lngLat : Option Coord) (s : MapState) :
    (addPolygonPoint lngLat s).drawingMode = s.drawingMode := by
  cases lngLat with
  | none => rfl
  | some c =>
      simp only [addPolygonPoint]
      split <;> rfl

theorem dispatchClick_drawingMode (mode : Option DrawingMode)
    (lngLat : Option Coord) (s : MapState) :
    (dispatchClick mode lngLat s).drawingMode = s.drawingMode := by
  cases mode with
  | none => rw [dispatchClick_none]
  | some dm =>
      cases lngLat with
      | none => cases dm <;> rfl
      | some c =>
          cases dm with
          | point => exact addPoint_drawingMode (some c) s
          | line => exact addLinePoint_drawingMode (some c) s
          | polygon => exact addPolygonPoint_drawingMode (some c) s

theorem addPoint_features_length (c : Coord) (s : MapState) :
    (addPoint (some c) s).features.length = s.features.length + 1 := by
  simp [addPoint]

theorem addLinePoint_features_length (c : Coord) (s : MapState) :
    (addLinePoint (some c) s).features.length ≤ s.features.length + 1 := by
  simp only [addLinePoint]
  split
  · simp
  · exact Nat.le_succ _

theorem addPolygonPoint_features_length (c : Coord) (s : MapState) :
    (addPolygonPoint (some c) s).features.length ≤ s.features.length + 1 := by
  simp only [addPolygonPoint]
  split
  · simp
  · exact Nat.le_succ _

theorem handlerInv_mount : HandlerInv mount := ⟨rfl, rfl⟩

theorem handlerInv_step (e : UIEvent) (c : Component) (h : HandlerInv c) :
    HandlerInv (step e c) := by
  obtain ⟨h1, h2⟩ := h
  cases e with
  | setTool t => exact ⟨h1, rfl⟩
  | click lngLat =>
      refine ⟨h1, ?_⟩
      show c.drawingHandlerMode = _
      simp only [step, boundClickHandlers, List.foldl_cons, List.foldl_nil]
      rw [dispatchClick_drawingMode, dispatchClick_drawingMode]
      exact h2
  | clearAllPressed => exact ⟨h1, rfl⟩

theorem handlerInv_run (es : List UIEvent) : HandlerInv (run es) := by
  unfold run
  suffices h : ∀ c : Component, HandlerInv c →
      HandlerInv (es.foldl (fun c e => step e c) c) from h mount handlerInv_mount
  induction es with
  | nil => intro c hc; exact hc
  | cons e tl ih =>
      intro c hc
      exact ih (step e c) (handlerInv_step e c hc)

theorem step_click_state (c : Component) (h : HandlerInv c)
    (lngLat : Option Coord) :
    (step (.click lngLat) c).state =
      dispatchClick c.state.drawingMode lngLat c.state := by
  obtain ⟨h1, h2⟩ := h
  simp only [step, boundClickHandlers, List.foldl_cons, List.foldl_nil, h1, h2]
  rw [dispatchClick_none]

end MapComponent

end GeoMapper

namespace GeoMapper

namespace MapComponent

theorem filter_ne_id_eq_self {l : List CustomFeature} {i : FeatureId}
    (h : i ∉ l.map CustomFeature.id) :
    l.filter (fun f => f.id ≠ i) = l := by
  apply List.filter_eq_self.mpr
  intro a ha
  simp only [ne_eq, decide_eq_true_eq]
  intro hc
  exact h (List.mem_map.mpr ⟨a, ha, hc⟩)

theorem id_not_mem_after_filter (l : List CustomFeature) (i : FeatureId) :
    i ∉ (l.filter (fun f => f.id ≠ i)).map CustomFeature.id := by
  intro hmem
  obtain ⟨g, hg, hgid⟩ := List.mem_map.mp hmem
  have hkept := (List.mem_filter.mp hg).2
  simp only [ne_eq, decide_eq_true_eq] at hkept
  exact hkept hgid

theorem handleFeatureDelete_features (i : FeatureId) (s : MapState) :
    (handleFeatureDelete i s).features = s.features.filter (fun f => f.id ≠ i) := by
  simp only [handleFeatureDelete]
  cases s.selectedFeature with
  | none => rfl
  | some sel =>
      by_cases h : sel.id = i
      · simp [h]
      · simp [h]

/-- C1 (code evidence): with the Line tool active, clicks at `(0,0)`,
`(1,1)`, `(2,2)` leave the store with TWO LineString features carrying
distinct fresh ids and coordinate lists `[(0,0),(1,1)]` and
`[(0,0),(1,1),(2,2)]` — the first click created nothing and each later
click appended a brand-new feature, not an update in place of one
feature as the claim states. -/
theorem c1_line_clicks_append_new_features :
    (run [UIEvent.setTool (some .line),
          UIEvent.click (some (.finite 0, .finite 0)),
          UIEvent.click (some (.finite 1, .finite 1)),
          UIEvent.click (some (.finite 2, .finite 2))]).state.features.map
        (fun f => (f.id, f.geometry)) =
      [(.uuid 0, .lineString [(.finite 0, .finite 0), (.finite 1, .finite 1)]),
       (.uuid 1, .lineString [(.finite 0, .finite 0), (.finite 1, .finite 1),
          (.finite 2, .finite 2)])] := by decide

/-- C3 (code evidence): `handleToolSelect` resets only `currentFeature`,
which no drawing handler reads, and leaves `linePoints` untouched; after
drawing a line at `(0,0)`, `(1,1)`, switching to Point and back to Line,
the next click at `(5,5)` resumes the old vertex sequence and produces a
feature with coordinates `[(0,0),(1,1),(5,5)]` instead of starting a new
shape `[(5,5)]`. -/
theorem c3_tool_switch_resumes_vertices :
    (run [UIEvent.setTool (some .line),
          UIEvent.click (some (.finite 0, .finite 0)),
          UIEvent.click (some (.finite 1, .finite 1)),
          UIEvent.setTool (some .point),
          UIEvent.setTool (some .line),
          UIEvent.click (some (.finite 5, .finite 5))]).state.features.map
        (fun f => f.geometry) =
      [.lineString [(.finite 0, .finite 0), (.finite 1, .finite 1)],
       .lineString [(.finite 0, .finite 0), (.finite 1, .finite 1),
          (.finite 5, .finite 5)]] := by decide

/-- C4 (code evidence): `clearAll` empties `features` and nulls the tool
(the claim's first half holds) but leaves `linePoints` as it stood, so
re-selecting the Line tool and clicking `(2,2)` creates a feature with
coordinates `[(0,0),(1,1),(2,2)]`, resuming the pre-clear vertex
sequence instead of starting a fresh one-vertex shape. -/
theorem c4_clear_all_keeps_line_points :
    ((run [UIEvent.setTool (some .line),
           UIEvent.click (some (.finite 0, .finite 0)),
           UIEvent.click (some (.finite 1, .finite 1)),
           UIEvent.clearAllPressed]).state.features = []
     ∧ (run [UIEvent.setTool (some .line),
           UIEvent.click (some (.finite 0, .finite 0)),
           UIEvent.click (some (.finite 1, .finite 1)),
           UIEvent.clearAllPressed]).state.linePoints =
         [(.finite 0, .finite 0), (.finite 1, .finite 1)])
    ∧ (run [UIEvent.setTool (some .line),
           UIEvent.click (some (.finite 0, .finite 0)),
           UIEvent.click (some (.finite 1, .finite 1)),
           UIEvent.clearAllPressed,
           UIEvent.setTool (some .line),
           UIEvent.click (some (.finite 2, .finite 2))]).state.features.map
        (fun f => f.geometry) =
      [.lineString [(.finite 0, .finite 0), (.finite 1, .finite 1),
         (.finite 2, .finite 2)]] := by decide

/-- C5 counterexample: a click whose longitude is NaN is not rejected —
with the Point tool active it creates a feature with that non-finite
coordinate, so the store does change, refuting the claimed rejection. -/
theorem c5_nan_click_creates_feature :
    (run [UIEvent.setTool (some .point),
          UIEvent.click (some (.nan, .finite 0))]).state.features.map
        (fun f => f.geometry) = [.point (.nan, .finite 0)] := by decide

/-- C5 (amended): the click handlers perform no coordinate validation at
all: for EVERY coordinate pair, finite or not, a Point-tool click appends
exactly one feature located there and a Line-tool click appends the pair
to the in-progress vertex list; the only dropped click is one whose
event carries no `lngLat` payload, which leaves the state unchanged. -/
theorem c5_no_coordinate_validation (s : MapState) (c : Coord) :
    ((dispatchClick (some .point) (some c) s).features.length
        = s.features.length + 1
      ∧ (dispatchClick (some .point) (some c) s).features.getLast? =
          some { id := .uuid s.nextUuid
                 geometry := .point c
                 properties :=
                   { name := "Point " ++ toString (s.features.length + 1)
                     description := "New point feature" } })
    ∧ (dispatchClick (some .line) (some c) s).linePoints = s.linePoints ++ [c]
    ∧ ∀ m, dispatchClick m none s = s := by
  refine ⟨⟨addPoint_features_length c s, ?_⟩, ?_, ?_⟩
  · show (addPoint (some c) s).features.getLast? = _
    simp only [addPoint]
    exact List.getLast?_concat _
  · show (addLinePoint (some c) s).linePoints = _
    simp only [addLinePoint]
    split <;> rfl
  · intro m
    cases m with
    | none => exact dispatchClick_none none s
    | some dm => cases dm <;> rfl

end MapComponent

namespace DraftTwo

/-- C8 (code evidence, second draft): with the Line tool, the first click
at time 100 creates the line feature with id `line-100`; appending a
vertex with a click at time 101 rebuilds the same (sole) feature with
the extended coordinates but a freshly generated id `line-101` — the id
assigned at creation does not survive the append, contradicting the
claimed id immutability. -/
theorem c8_vertex_append_regenerates_id :
    ((DraftTwo.addLinePoint (.finite 0, .finite 0) 100
        { features := [], drawingMode := some .line }).features.map
          MapFeature.id = [.lineStamp 100])
    ∧ ((DraftTwo.addLinePoint (.finite 1, .finite 1) 101
        (DraftTwo.addLinePoint (.finite 0, .finite 0) 100
          { features := [], drawingMode := some .line })).features.map
            (fun f => (f.id, f.coordinates)) =
        [(.lineStamp 101,
          .seq [(.finite 0, .finite 0), (.finite 1, .finite 1)])]) := by decide

end DraftTwo

end GeoMapper

namespace GeoMapper

namespace MapComponent

/-- C2 counterexample: already after a single `setTool(Point)` the
rendering surface holds TWO bound click listeners (the mount-time
listener, never unbound until unmount, and the drawing listener), so "at
every reachable state exactly one click handler is bound" is false. -/
theorem c2_two_click_handlers_bound :
    (boundClickHandlers (run [UIEvent.setTool (some .point)])).length = 2
    ∧ (boundClickHandlers (run [UIEvent.setTool (some .point)])).length ≠ 1 := by
  decide

/-- C2 (amended): for every sequence of tool selections, clicks and
clear-alls, a physical click creates exactly the number of features the
CURRENT tool prescribes — zero for no tool, exactly one for Point, at
most one for Line/Polygon — never multiplied by prior tool switches:
the drawing listener is rebound with unbind-first on every mode change,
and the second, mount-time listener is permanently inert because its
closure captured the initial null tool. -/
theorem c2_click_creates_per_current_tool (es : List UIEvent) (c : Coord) :
    ((run es).state.drawingMode = none →
        (step (.click (some c)) (run es)).state.features
          = (run es).state.features)
    ∧ ((run es).state.drawingMode = some .point →
        (step (.click (some c)) (run es)).state.features.length
          = (run es).state.features.length + 1)
    ∧ ((run es).state.drawingMode = some .line →
        (step (.click (some c)) (run es)).state.features.length
          ≤ (run es).state.features.length + 1)
    ∧ ((run es).state.drawingMode = some .polygon →
        (step (.click (some c)) (run es)).state.features.length
          ≤ (run es).state.features.length + 1) := by
  have hstate := step_click_state (run es) (handlerInv_run es) (some c)
  refine ⟨?_, ?_, ?_, ?_⟩ <;> intro hmode <;> rw [hstate, hmode]
  · rw [dispatchClick_none]
  · exact addPoint_features_length c _
  · exact addLinePoint_features_length c _
  · exact addPolygonPoint_features_length c _

/-- Witness for the amended C2 theorem at a concrete input: after
selecting the Point tool, one click at `(10,20)` grows the store by
exactly one feature. -/
theorem c2_click_creates_per_current_tool_witness :
    (step (.click (some (.finite 10, .finite 20)))
        (run [UIEvent.setTool (some .point)])).state.features.length
      = (run [UIEvent.setTool (some .point)]).state.features.length + 1 :=
  (c2_click_creates_per_current_tool [UIEvent.setTool (some .point)]
    (.finite 10, .finite 20)).2.1 (by decide)

/-- C6: deleting or property-updating an id absent from the store is the
NotFound outcome the spec defines: a silent no-op — `features` (hence
`list()`) is unchanged, and since both handlers are total functions no
exception reaches the caller. -/
theorem c6_missing_id_is_noop (s : MapState) (i : FeatureId)
    (f : CustomFeature) (name description : String)
    (hd : i ∉ s.features.map CustomFeature.id)
    (hu : f.id ∉ s.features.map CustomFeature.id) :
    (handleFeatureDelete i s).features = s.features
    ∧ (updateFeatureProperties f name description s).features = s.features := by
  constructor
  · rw [handleFeatureDelete_features]
    exact filter_ne_id_eq_self hd
  · show (handleFeatureUpdate (handleSave f name description) s).features
      = s.features
    simp only [handleFeatureUpdate, handleSave]
    have hcongr : ∀ g ∈ s.features,
        (if g.id = f.id
          then { g with properties := { name := name, description := description } }
          else g) = id g := by
      intro g hg
      rw [if_neg]
      · rfl
      · intro hc
        exact hu (List.mem_map.mpr ⟨g, hg, hc⟩)
    rw [List.map_congr_left hcongr, List.map_id]

/-- Witness for C6: deleting the absent id `uuid 5` and updating with a
feature of absent id `uuid 7` both leave the two-feature sample store's
list unchanged. -/
theorem c6_missing_id_is_noop_witness :
    (handleFeatureDelete (.uuid 5) sampleStore).features = sampleStore.features
    ∧ (updateFeatureProperties ghostFeature "x" "y" sampleStore).features
        = sampleStore.features :=
  c6_missing_id_is_noop sampleStore (.uuid 5) ghostFeature "x" "y"
    (by decide) (by decide)

/-- C7: if the selected feature is F, `handleFeatureDelete F.id` removes
every feature with that id from the store, clears the selection and
closes the properties panel; deleting any id different from the selected
feature's id leaves the selection and the panel state untouched. -/
theorem c7_delete_clears_selection (s : MapState) (F : CustomFeature)
    (i : FeatureId) :
    (s.selectedFeature = some F →
        (handleFeatureDelete F.id s).selectedFeature = none
        ∧ (handleFeatureDelete F.id s).showProperties = false
        ∧ F.id ∉ (handleFeatureDelete F.id s).features.map CustomFeature.id)
    ∧ (∀ G, s.selectedFeature = some G → G.id ≠ i →
        (handleFeatureDelete i s).selectedFeature = s.selectedFeature
        ∧ (handleFeatureDelete i s).showProperties = s.showProperties) := by
  constructor
  · intro hsel
    have hfeat : (handleFeatureDelete F.id s).features
        = s.features.filter (fun f => f.id ≠ F.id) :=
      handleFeatureDelete_features F.id s
    simp only [handleFeatureDelete, hsel, if_pos rfl]
    refine ⟨rfl, rfl, ?_⟩
    exact id_not_mem_after_filter s.features F.id
  · intro G hsel hne
    simp only [handleFeatureDelete, hsel, if_neg hne]
    constructor <;> simp [hsel]

/-- Witness for C7: with the sample point selected, deleting its id
clears the selection, closes the panel and removes the id from the
store; deleting the absent id `uuid 9` instead leaves selection and
panel as they were. -/
theorem c7_delete_clears_selection_witness :
    ((handleFeatureDelete samplePoint.id selectedStore).selectedFeature = none
      ∧ (handleFeatureDelete samplePoint.id selectedStore).showProperties = false
      ∧ samplePoint.id ∉
          (handleFeatureDelete samplePoint.id selectedStore).features.map
            CustomFeature.id)
    ∧ ((handleFeatureDelete (.uuid 9) selectedStore).selectedFeature
          = selectedStore.selectedFeature
        ∧ (handleFeatureDelete (.uuid 9) selectedStore).showProperties
          = selectedStore.showProperties) :=
  ⟨(c7_delete_clears_selection selectedStore samplePoint (.uuid 9)).1 rfl,
   (c7_delete_clears_selection selectedStore samplePoint (.uuid 9)).2
     samplePoint rfl (by decide)⟩

end MapComponent

end GeoMapper

namespace GeoMapper

namespace MapComponent

theorem enumFrom_filter_ne_map_snd {α : Type} (l : List α) : ∀ n i : ℕ,
    ((List.enumFrom n l).filter (fun p => p.1 ≠ i)).map Prod.snd =
      if n ≤ i then l.take (i - n) ++ l.drop (i - n + 1) else l := by
  induction l with
  | nil =>
      intro n i
      simp only [List.enumFrom_nil, List.filter_nil, List.map_nil,
        List.take_nil, List.drop_nil, List.append_nil]
      split <;> rfl
  | cons a tl ih =>
      intro n i
      rw [List.enumFrom_cons, List.filter_cons]
      by_cases hni : n = i
      · subst hni
        simp only [ne_eq, not_true_eq_false, decide_False,
          Bool.false_eq_true, if_false]
        rw [ih (n + 1) n, if_neg (by omega : ¬ n + 1 ≤ n),
          if_pos (Nat.le_refl n)]
        simp
      · have hcond : (decide (n ≠ i)) = true := by
          simp [hni]
        rw [if_pos hcond, List.map_cons, ih (n + 1) i]
        by_cases hle : n ≤ i
        · rw [if_pos (by omega : n + 1 ≤ i), if_pos hle]
          have h2 : i - n = (i - (n + 1)) + 1 := by omega
          rw [h2]
          simp only [List.take_succ_cons, List.drop_succ_cons,
            List.cons_append]
        · rw [if_neg (by omega : ¬ n + 1 ≤ i), if_neg hle]

theorem removeFeature_features (s : MapState) (i : ℕ) :
    (removeFeature i s).features =
      s.features.take i ++ s.features.drop (i + 1) := by
  show ((s.features.enum.filter (fun p => p.1 ≠ i)).map Prod.snd) = _
  rw [List.enum, enumFrom_filter_ne_map_snd s.features 0 i,
    if_pos (Nat.zero_le i)]
  simp

/-- C9: the property-update path touches only the matching feature's
`properties`: the store keeps its length and order, every position keeps
its id and geometry, positions whose id differs from the updated
feature's id are exactly unchanged, and matching positions carry the
edited name and description and nothing else new. -/
theorem c9_update_touches_only_properties (s : MapState) (F : CustomFeature)
    (name description : String) :
    (updateFeatureProperties F name description s).features.length
        = s.features.length
    ∧ ∀ (j : ℕ) (g : CustomFeature), s.features[j]? = some g →
        ∃ u : CustomFeature,
          (updateFeatureProperties F name description s).features[j]? = some u
          ∧ u.id = g.id
          ∧ u.geometry = g.geometry
          ∧ (g.id ≠ F.id → u = g)
          ∧ (g.id = F.id →
              u.properties = { name := name, description := description }) := by
  have hmap : (updateFeatureProperties F name description s).features
      = s.features.map (fun f =>
          if f.id = F.id
          then { f with properties := { name := name, description := description } }
          else f) := rfl
  constructor
  · rw [hmap]
    exact List.length_map s.features _
  · intro j g hj
    rw [hmap, List.getElem?_map, hj, Option.map_some']
    by_cases hid : g.id = F.id
    · exact ⟨{ g with properties := { name := name, description := description } },
        by rw [if_pos hid], rfl, rfl, fun hc => absurd hid hc, fun _ => rfl⟩
    · exact ⟨g, by rw [if_neg hid], rfl, rfl, fun _ => rfl,
        fun hc => absurd hc hid⟩

end MapComponent

end GeoMapper

namespace GeoMapper

namespace MapComponent

/-- Witness for C9: updating the sample point's properties to
"Cafe"/"Good coffee" keeps the store length and leaves the point at
position 0 with its id and geometry, now carrying the new properties. -/
theorem c9_update_touches_only_properties_witness :
    (updateFeatureProperties samplePoint "Cafe" "Good coffee"
        sampleStore).features.length = sampleStore.features.length
    ∧ (updateFeatureProperties samplePoint "Cafe" "Good coffee"
          sampleStore).features[0]? =
        some { samplePoint with
                 properties := { name := "Cafe", description := "Good coffee" } } := by
  have h := c9_update_touches_only_properties sampleStore samplePoint
    "Cafe" "Good coffee"
  obtain ⟨u, h1, h2, h3, _, h5⟩ := h.2 0 samplePoint (by decide)
  refine ⟨h.1, ?_⟩
  rw [h1]
  obtain ⟨uid, ugeom, uprops⟩ := u
  have h2x : uid = samplePoint.id := h2
  have h3x : ugeom = samplePoint.geometry := h3
  have h5x : uprops = { name := "Cafe", description := "Good coffee" } := h5 rfl
  rw [h2x, h3x, h5x]

/-- C10: deletion keeps the surviving features in their original relative
order: if the store is `l1 ++ F :: l2` and F's id occurs nowhere else,
`handleFeatureDelete F.id` leaves exactly `l1 ++ l2`; and
`removeFeature i` leaves exactly the prefix before position i followed by
the suffix after it (all of the list when i is out of range). -/
theorem c10_deletion_preserves_order (s t : MapState)
    (l1 l2 : List CustomFeature) (F : CustomFeature) (i : ℕ)
    (hs : s.features = l1 ++ F :: l2)
    (h1 : F.id ∉ l1.map CustomFeature.id)
    (h2 : F.id ∉ l2.map CustomFeature.id) :
    (handleFeatureDelete F.id s).features = l1 ++ l2
    ∧ (removeFeature i t).features =
        t.features.take i ++ t.features.drop (i + 1) := by
  constructor
  · rw [handleFeatureDelete_features, hs, List.filter_append,
      List.filter_cons, filter_ne_id_eq_self h1, filter_ne_id_eq_self h2]
    simp
  · exact removeFeature_features t i

/-- Witness for C10: deleting the sample line (which sits between the
sample point and the ghost feature) keeps the two survivors in order,
and `removeFeature 0` drops exactly the head of the sample store. -/
theorem c10_deletion_preserves_order_witness :
    (handleFeatureDelete sampleLine.id
        { initialState with
            features := [samplePoint, sampleLine, ghostFeature] }).features
      = [samplePoint, ghostFeature]
    ∧ (removeFeature 0 sampleStore).features =
        sampleStore.features.take 0 ++ sampleStore.features.drop 1 :=
  c10_deletion_preserves_order
    { initialState with features := [samplePoint, sampleLine, ghostFeature] }
    sampleStore [samplePoint] [ghostFeature] sampleLine 0
    rfl (by decide) (by decide)

end MapComponent

end GeoMapper
